import Mathlib

/-!
# standardese: selective preprocessor hooks and function extraction

A shallow embedding of `src/preprocessor.cpp` (the Boost.Wave policy class, `setup_context`
and `preprocessor::preprocess`) and of `src/cpp_function.cpp` (parameter, function and
member-function extraction).

Conventions of the embedding.

* `std::string` is `String`.  Strings are NUL-free, so `s.c_str()` converted back to a
  `std::string` is `s` itself, `s.c_str()[k]` is the `k`-th character (the terminator when
  `k = s.size()`), and `&s.c_str()[k]` is `s` without its first `k` characters.
* A mutable object reached through a pointer or reference is passed in and returned.
* A failed `assert`, or an access outside a container, makes the function return
  `none` / `Except.error`.
* An `unsigned(x)` conversion of a `std::size_t` is `x % 2 ^ 32`.
-/

set_option autoImplicit false

namespace standardese

/-! ## Strings -/

/-- The call `s.erase(s.begin())`: drops the first character. -/
def erase_begin (s : String) : String := ⟨s.data.tail⟩

/-- The call `s.pop_back()`: drops the last character. -/
def pop_back (s : String) : String := ⟨s.data.dropLast⟩

/-- The expression `s.c_str()[k]`: the `k`-th character, the terminator past the last one. -/
def c_str_at (s : String) (k : Nat) : Char := s.data.getD k (Char.ofNat 0)

/-- The expression `&(s.c_str()[k])` read back as a string: `s` without its first `k` characters. -/
def c_str_from (s : String) (k : Nat) : String := ⟨s.data.drop k⟩

/-! ## Tokens of the macro engine -/

/-- A `bw::cpplexer::lex_token<>`: its text (`get_value()`) and the line of its position
(`get_position().get_line()`, a `std::size_t`). -/
structure lex_token where
  value : String
  line : Nat
  deriving DecidableEq, Repr

/-- The loop `for (auto& token : tokens) str += token.get_value().c_str();`. -/
def append_values (str : String) : List lex_token → String
  | [] => str
  | token :: rest => append_values (str ++ token.value) rest

/-! ## Entity model -/

/-- A `cpp_type_ref`: the type handle and the display text. -/
structure cpp_type_ref where
  type : Nat
  name : String
  deriving DecidableEq, Repr

/-- A `cpp_function_parameter` entity. -/
structure cpp_function_parameter where
  name : String
  comment : String
  type : cpp_type_ref
  default_value : String
  deriving DecidableEq, Repr

/-- Modelled from the spec: the `cpp_function_info` attribute bundle.  Its fields are declared
in a header outside the sources at hand; the extraction code only passes the bundle through. -/
structure cpp_function_info where
  attributes : List String
  deriving DecidableEq, Repr

/-- The `cpp_virtual` flag of a member function. -/
inductive cpp_virtual where
  | cpp_virtual_none
  | cpp_virtual_pure
  | cpp_virtual_new
  | cpp_virtual_overriden
  | cpp_virtual_final
  deriving DecidableEq, Repr

/-- The `cpp_ref` qualifier of a member function. -/
inductive cpp_ref where
  | cpp_ref_none
  | cpp_ref_lvalue
  | cpp_ref_rvalue
  deriving DecidableEq, Repr

/-- The `cpp_member_function_info` bundle: the three qualifier fields the assertions of
`parse_function_info` read.  `cv_qualifier` is the `cpp_cv` bit set as a number. -/
structure cpp_member_function_info where
  virtual_flag : cpp_virtual
  cv_qualifier : Nat
  ref_qualifier : cpp_ref
  deriving DecidableEq, Repr

/-- A default-constructed `cpp_member_function_info`. -/
def cpp_member_function_info.default : cpp_member_function_info :=
  ⟨cpp_virtual.cpp_virtual_none, 0, cpp_ref.cpp_ref_none⟩

/-- A `cpp_function` entity; `parameters` is the list `add_parameter` fills. -/
structure cpp_function where
  scope : String
  name : String
  comment : String
  return_type : cpp_type_ref
  info : cpp_function_info
  parameters : List cpp_function_parameter
  deriving DecidableEq, Repr

/-- A `cpp_member_function` entity. -/
structure cpp_member_function where
  scope : String
  name : String
  comment : String
  return_type : cpp_type_ref
  finfo : cpp_function_info
  minfo : cpp_member_function_info
  parameters : List cpp_function_parameter
  deriving DecidableEq, Repr

/-- The kind of a `cpp_inclusion_directive`. -/
inductive inclusion_kind where
  | system
  | local_
  deriving DecidableEq, Repr

/-- Modelled from the spec: the entity variants a `cpp_file` holds (section 3 of the spec,
"Entity ... realized by variants"); the entity classes are declared in headers outside the
sources at hand.  The fields of the two directive variants are the arguments the policy passes
to `cpp_macro_definition::make` and `cpp_inclusion_directive::make`. -/
inductive cpp_entity where
  | macro_definition (name : String) (args : String) (replacement : String) (line : Nat)
  | inclusion_directive (file_name : String) (kind : inclusion_kind) (line : Nat)
  | function (f : cpp_function)
  | member_function (f : cpp_member_function)
  deriving DecidableEq, Repr

/-- Modelled from the spec: `cpp_entity::get_name()`, the name every entity carries; for an
inclusion directive it is the path text. -/
def cpp_entity.get_name : cpp_entity → String
  | .macro_definition name _ _ _ => name
  | .inclusion_directive file_name _ _ => file_name
  | .function f => f.name
  | .member_function f => f.name

/-- A `cpp_file`, as the preprocessor sees it: the ordered sequence of its entities. -/
abbrev cpp_file := List cpp_entity

/-- Modelled from the spec: `cpp_file::add_entity`, which appends the entity at the end of the
sequence ("append", insertion order = source appearance order). -/
def add_entity (file : cpp_file) (e : cpp_entity) : cpp_file := file ++ [e]

/-- Modelled from the spec: `cpp_file::remove_entity_after(prev)`, defined in a header outside
the sources at hand.  The spec (section 4.4, event 3) says it removes all entities after the
tracked predecessor through the end of the sequence, the predecessor itself excluded, i.e. it
truncates the list; a null predecessor stands for "before the first entity".  The predecessor
pointer is the position of the entity it points to. -/
def remove_entity_after (file : cpp_file) : Option Nat → cpp_file
  | none => []
  | some i => file.take (i + 1)

/-! ## The preprocessing policy -/

/-- What the hooks read of the Boost.Wave context: the iteration depth and the include
resolver.  Boost.Wave declares the resolver as
`bool find_include_file(std::string& s, std::string& dir, bool is_system, char const* current_file) const`:
`s` and `dir` are both passed by non-const reference, and on success the engine stores the path
of the located file in `s` and its path relative to the search directory in `dir`.  The field
yields, on success, the values left in `s` and in `dir`; on failure `none`, and `s` is left as
it was. -/
structure wave_context where
  iteration_depth : Nat
  find_include_file : String → Bool → Option (String × String)

/-- What the hooks read of the `preprocessor`: the documentation-relevant directory predicate
`is_preprocess_directory`, and the Boost.Filesystem expression
`fs::path(dir).remove_filename().generic_string()` feeding it. -/
structure preprocessor where
  is_preprocess_directory : String → Bool
  remove_filename : String → String

/-- The objects the policy mutates: `*file_` and `*include_`. -/
structure policy_state where
  file : cpp_file
  include_ : String
  deriving DecidableEq, Repr

/-- The scan of `undefined_macro`: `prev` starts null and follows the entities until the first
one whose name equals `name`; `i` is the position of the entity under the loop variable. -/
def scan_prev (name : String) : List cpp_entity → Nat → Option Nat → Option Nat
  | [], _, prev => prev
  | entity :: rest, i, prev =>
    if entity.get_name = name then prev else scan_prev name rest (i + 1) (some i)

/-- The hook `policy::undefined_macro`. -/
def undefined_macro (ctx : wave_context) (st : policy_state) (name : lex_token) : policy_state :=
  if ctx.iteration_depth ≠ 0 then st
  else { st with file := remove_entity_after st.file (scan_prev name.value st.file 0 none) }

/-- The hook `policy::defined_macro`. -/
def defined_macro (ctx : wave_context) (st : policy_state) (name : lex_token)
    (is_function_like : Bool) (parameters : List lex_token) (definition : List lex_token)
    (is_predefined : Bool) : policy_state :=
  if is_predefined || ctx.iteration_depth ≠ 0 then st
  else
    let str_name := name.value
    let str_params := if is_function_like then append_values ("" ++ "(") parameters ++ ")" else ""
    let str_def := append_values "" definition
    let entity := cpp_entity.macro_definition str_name str_params str_def (name.line % 2 ^ 32)
    { st with file := add_entity st.file entity }

/-- The helper `policy::use_include`: the result, and the values left in the reference
parameters `file_name` and `is_system`.  `none` is a failed assertion, or `pop_back` on an
empty string. -/
def use_include (pre : preprocessor) (ctx : wave_context) (file_name : String)
    (is_system : Bool) (include_next : Bool) : Option (Bool × String × Bool) :=
  if include_next then some (false, file_name, is_system)
  else if c_str_at file_name 0 = '<' ∨ c_str_at file_name 0 = '"' then
    let is_system := decide (c_str_at file_name 0 = '<')
    let file_name := erase_begin file_name
    if file_name.data = [] then none
    else
      let file_name := pop_back file_name
      match ctx.find_include_file file_name is_system with
      | none => some (false, file_name, is_system)
      | some (file_name, dir) =>
        some (pre.is_preprocess_directory (pre.remove_filename dir), file_name, is_system)
  else none

/-- The hook `policy::found_include_directive`.  The local `bool is_system;` is declared
without an initial value; `is_system` is the indeterminate value it holds at that point. -/
def found_include_directive (pre : preprocessor) (ctx : wave_context) (st : policy_state)
    (file_name : String) (include_next : Bool) (is_system : Bool) :
    Option (policy_state × Bool) :=
  match use_include pre ctx file_name is_system include_next with
  | none => none
  | some (true, file_name, is_system) =>
    if ctx.iteration_depth = 0 then
      let entity := cpp_entity.inclusion_directive file_name
        (if is_system then inclusion_kind.system else inclusion_kind.local_) 0
      some ({ st with file := add_entity st.file entity }, false)
    else some (st, false)
  | some (false, file_name, is_system) =>
    let text := st.include_ ++ "#"
      ++ (if include_next then "include_next" else "include")
      ++ (if is_system then "<" else "\"")
      ++ file_name
      ++ (if is_system then ">" else "\"")
      ++ "\n"
    some ({ st with include_ := text }, true)

/-! ## Engine configuration -/

/-- The Boost.Wave language options `setup_context` combines. -/
inductive language_support where
  | support_cpp
  | support_option_variadics
  | support_option_long_long
  | support_option_insert_whitespace
  | support_option_emit_line_directives
  | support_option_preserve_comments
  deriving DecidableEq, Repr

/-- A configuration call `setup_context` makes on the Boost.Wave context, with its argument. -/
inductive context_call where
  | set_language (lang : List language_support)
  | add_macro_definition (macrostring : String)
  | remove_macro_definition (name : String)
  | add_sysinclude_path (path : String)
  | add_include_path (path : String)
  deriving DecidableEq, Repr

/-- The flag loop of `setup_context`.  The iterator is the position `i` together with the
flags from that position on; `calls` are the calls made so far.  `Except.error k` is the
dereference of the iterator at position `k` when no element is there. -/
def setup_context_loop (calls : List context_call) (i : Nat) :
    List String → Except Nat (List context_call)
  | [] => .ok calls
  | flag :: rest =>
    if flag = "-D" then
      match rest with
      | [] => .error (i + 1)
      | value :: rest =>
        setup_context_loop (calls ++ [context_call.add_macro_definition value]) (i + 2) rest
    else if flag = "-U" then
      match rest with
      | [] => .error (i + 1)
      | value :: rest =>
        setup_context_loop (calls ++ [context_call.remove_macro_definition value]) (i + 2) rest
    else if flag = "-I" then
      match rest with
      | [] => .error (i + 1)
      | value :: rest =>
        setup_context_loop (calls ++ [context_call.add_sysinclude_path value]) (i + 2) rest
    else if c_str_at flag 0 = '-' then
      if c_str_at flag 1 = 'D' then
        setup_context_loop (calls ++ [context_call.add_macro_definition (c_str_from flag 2)])
          (i + 1) rest
      else if c_str_at flag 1 = 'U' then
        setup_context_loop (calls ++ [context_call.remove_macro_definition (c_str_from flag 2)])
          (i + 1) rest
      else if c_str_at flag 1 = 'I' then
        setup_context_loop (calls ++ [context_call.add_include_path (c_str_from flag 2)])
          (i + 1) rest
      else setup_context_loop calls (i + 1) rest
    else setup_context_loop calls (i + 1) rest

/-- The local `lang` of `setup_context`: the options it combines with `|`. -/
def setup_context_lang : List language_support :=
  [language_support.support_cpp, language_support.support_option_variadics,
    language_support.support_option_long_long, language_support.support_option_insert_whitespace,
    language_support.support_option_emit_line_directives,
    language_support.support_option_preserve_comments]

/-- The function `setup_context`: the calls it makes on the context, in order. -/
def setup_context (c : List String) : Except Nat (List context_call) :=
  setup_context_loop [context_call.set_language setup_context_lang] 0 c

/-! ## The preprocessing run -/

/-- The libclang cursor kinds the extraction code tells apart. -/
inductive CXCursorKind where
  | CXCursor_FunctionDecl
  | CXCursor_CXXMethod
  | CXCursor_ParmDecl
  | CXCursor_TemplateTypeParameter
  | CXCursor_TypeRef
  | CXCursor_CompoundStmt
  | CXCursor_UnexposedAttr
  deriving DecidableEq, Repr

/-- A cursor of the parsed tree: an identity for the libclang queries, its kind, and its
direct children in declaration order. -/
inductive cpp_cursor where
  | mk (id : Nat) (kind : CXCursorKind) (children : List cpp_cursor)

/-- The query `clang_getCursorKind`. -/
def clang_getCursorKind : cpp_cursor → CXCursorKind
  | .mk _ kind _ => kind

/-- The direct children of a cursor. -/
def cpp_cursor.children : cpp_cursor → List cpp_cursor
  | .mk _ _ children => children

/-- The libclang visitor results. -/
inductive CXChildVisitResult where
  | CXChildVisit_Break
  | CXChildVisit_Continue
  | CXChildVisit_Recurse
  deriving DecidableEq, Repr

/-- The traversal of `clang_visitChildren` over the children `cs` of `parent`: the visitor sees
each child with its parent, in order; `Break` ends the traversal, `Continue` goes on with the
next sibling, `Recurse` visits the children of the child first.  The flag of the result tells
whether the traversal was broken off; `none` is a failed assertion in the visitor. -/
def visit_cursors {σ : Type} (f : cpp_cursor → cpp_cursor → σ → Option (σ × CXChildVisitResult))
    (parent : cpp_cursor) : List cpp_cursor → σ → Option (σ × Bool)
  | [], s => some (s, false)
  | .mk id kind cs :: rest, s =>
    match f (.mk id kind cs) parent s with
    | none => none
    | some (s, .CXChildVisit_Break) => some (s, true)
    | some (s, .CXChildVisit_Continue) => visit_cursors f parent rest s
    | some (s, .CXChildVisit_Recurse) =>
      match visit_cursors f (.mk id kind cs) cs s with
      | none => none
      | some (s, true) => some (s, true)
      | some (s, false) => visit_cursors f parent rest s

/-- Modelled from the spec: `detail::visit_children`, defined in `detail/parse_utils.hpp`
outside the sources at hand; it runs the visitor over the direct children of `cur`, in
declaration order (section 4.3, step 3), with the libclang meaning of the visitor results. -/
def visit_children {σ : Type} (cur : cpp_cursor)
    (f : cpp_cursor → cpp_cursor → σ → Option (σ × CXChildVisitResult)) (s : σ) : Option σ :=
  (visit_cursors f cur cur.children s).map Prod.fst

/-- The queries on a cursor the extraction code calls and the sources at hand do not define:
`detail::parse_name`, `detail::parse_comment`, `detail::parse_variable_type_name` (its result
and the value it leaves in `default_value`), `detail::parse_function_info` (its result and the
values it leaves in the two bundles), `clang_getCursorType` and `clang_getCursorResultType`. -/
structure parse_utils where
  parse_name : cpp_cursor → String
  parse_comment : cpp_cursor → String
  parse_variable_type_name : cpp_cursor → String → String × String
  parse_function_info : cpp_cursor → String → String × cpp_function_info × cpp_member_function_info
  clang_getCursorType : cpp_cursor → Nat
  clang_getCursorResultType : cpp_cursor → Nat

/-- The helper `parse_parameter_type`: the type reference and the default value. -/
def parse_parameter_type (u : parse_utils) (cur : cpp_cursor) (name : String) :
    Option (cpp_type_ref × String) :=
  if clang_getCursorKind cur = CXCursorKind.CXCursor_ParmDecl then
    let type := u.clang_getCursorType cur
    let r := u.parse_variable_type_name cur name
    some (⟨type, r.1⟩, r.2)
  else none

/-- The function `cpp_function_parameter::parse`. -/
def cpp_function_parameter.parse (u : parse_utils) (cur : cpp_cursor) :
    Option cpp_function_parameter :=
  if clang_getCursorKind cur = CXCursorKind.CXCursor_ParmDecl then
    let name := u.parse_name cur
    match parse_parameter_type u cur name with
    | none => none
    | some (type, default_value) => some ⟨name, u.parse_comment cur, type, default_value⟩
  else none

/-- The helper `parse_function_info` of the free-function form, with its three assertions. -/
def parse_function_info (u : parse_utils) (cur : cpp_cursor) (name : String) :
    Option (cpp_type_ref × cpp_function_info) :=
  let type := u.clang_getCursorResultType cur
  let r := u.parse_function_info cur name
  if r.2.2.virtual_flag = cpp_virtual.cpp_virtual_none ∧ r.2.2.cv_qualifier = 0
      ∧ r.2.2.ref_qualifier = cpp_ref.cpp_ref_none then
    some (⟨type, r.1⟩, r.2.1)
  else none

/-- The visitor lambda of `parse_parameters`; the `cpp_function_base` is its parameter list,
to which `add_parameter` appends. -/
def parse_parameters_visitor (u : parse_utils) (cur : cpp_cursor) (_parent : cpp_cursor)
    (base : List cpp_function_parameter) :
    Option (List cpp_function_parameter × CXChildVisitResult) :=
  if clang_getCursorKind cur = CXCursorKind.CXCursor_ParmDecl then
    match cpp_function_parameter.parse u cur with
    | none => none
    | some p => some (base ++ [p], CXChildVisitResult.CXChildVisit_Continue)
  else some (base, CXChildVisitResult.CXChildVisit_Continue)

/-- The helper `parse_parameters`. -/
def parse_parameters (u : parse_utils) (base : List cpp_function_parameter) (cur : cpp_cursor) :
    Option (List cpp_function_parameter) :=
  visit_children cur (parse_parameters_visitor u) base

/-- The function `cpp_function::parse`. -/
def cpp_function.parse (u : parse_utils) (scope : String) (cur : cpp_cursor) :
    Option cpp_function :=
  if clang_getCursorKind cur = CXCursorKind.CXCursor_FunctionDecl then
    let name := u.parse_name cur
    match parse_function_info u cur name with
    | none => none
    | some (return_type, info) =>
      let result : cpp_function := ⟨scope, name, u.parse_comment cur, return_type, info, []⟩
      match parse_parameters u result.parameters cur with
      | none => none
      | some parameters => some { result with parameters := parameters }
  else none

/-- The helper `parse_member_function_info`. -/
def parse_member_function_info (u : parse_utils) (cur : cpp_cursor) (name : String) :
    cpp_type_ref × cpp_function_info × cpp_member_function_info :=
  let type := u.clang_getCursorResultType cur
  let r := u.parse_function_info cur name
  (⟨type, r.1⟩, r.2.1, r.2.2)

/-- The function `cpp_member_function::parse`. -/
def cpp_member_function.parse (u : parse_utils) (scope : String) (cur : cpp_cursor) :
    Option cpp_member_function :=
  if clang_getCursorKind cur = CXCursorKind.CXCursor_CXXMethod then
    let name := u.parse_name cur
    let r := parse_member_function_info u cur name
    let result : cpp_member_function :=
      ⟨scope, name, u.parse_comment cur, r.1, r.2.1, r.2.2, []⟩
    match parse_parameters u result.parameters cur with
    | none => none
    | some parameters => some { result with parameters := parameters }
  else none


/-! ## Sample inputs for the extraction -/

/-- Sample answers of the cursor queries: cursor 2 is named `x`, every other cursor has the
empty name; every parameter has type text `int`, cursor 3 the default value `4`; no function
carries member qualifiers. -/
def sample_utils : parse_utils where
  parse_name := fun c => match c with
    | .mk id _ _ => if id = 0 then "f" else if id = 2 then "x" else ""
  parse_comment := fun _ => ""
  parse_variable_type_name := fun c _ => match c with
    | .mk id _ _ => ("int", if id = 3 then "4" else "")
  parse_function_info := fun _ _ => ("int", ⟨[]⟩, cpp_member_function_info.default)
  clang_getCursorType := fun _ => 17
  clang_getCursorResultType := fun _ => 17

/-- Sample function node `int f(int x, int = 4)`: a type reference child, the parameter `x`,
an unnamed parameter, and a body holding a nested `ParmDecl` that is not a direct child. -/
def sample_function : cpp_cursor :=
  .mk 0 CXCursorKind.CXCursor_FunctionDecl
    [.mk 1 CXCursorKind.CXCursor_TypeRef [],
     .mk 2 CXCursorKind.CXCursor_ParmDecl [],
     .mk 3 CXCursorKind.CXCursor_ParmDecl [],
     .mk 4 CXCursorKind.CXCursor_CompoundStmt [.mk 5 CXCursorKind.CXCursor_ParmDecl []]]


/-! ## Lemmas on the undefinition scan -/

theorem scan_prev_append (nm : String) (rest : List cpp_entity) :
    ∀ (front : List cpp_entity) (i : Nat) (prev : Option Nat),
      (∀ x ∈ front, x.get_name ≠ nm) →
      scan_prev nm (front ++ rest) i prev
        = scan_prev nm rest (i + front.length)
            (if front = [] then prev else some (i + front.length - 1)) := by
  intro front
  induction front with
  | nil => intro i prev _; simp
  | cons x xs ih =>
    intro i prev h
    have hx : x.get_name ≠ nm := h x (by simp)
    have hxs : ∀ y ∈ xs, y.get_name ≠ nm := fun y hy => h y (by simp [hy])
    have step : scan_prev nm (x :: xs ++ rest) i prev
        = scan_prev nm (xs ++ rest) (i + 1) (some i) := by
      simp [scan_prev, hx]
    rw [step, ih (i + 1) (some i) hxs]
    by_cases hnil : xs = []
    · subst hnil; simp
    · have hpos : 0 < xs.length := List.length_pos.mpr hnil
      have e1 : i + 1 + xs.length = i + (x :: xs).length := by
        simp only [List.length_cons]; omega
      have e2 : i + 1 + xs.length - 1 = i + (x :: xs).length - 1 := by
        simp only [List.length_cons]; omega
      simp [hnil, e1, e2]

theorem remove_entity_after_front (front rest : List cpp_entity) :
    remove_entity_after (front ++ rest)
      (if front = [] then none else some (0 + front.length - 1)) = front := by
  by_cases hnil : front = []
  · subst hnil; simp [remove_entity_after]
  · have hpos : 0 < front.length := List.length_pos.mpr hnil
    have e : front.length - 1 + 1 = front.length := by omega
    simp [hnil, remove_entity_after, e]

/-! ## Lemmas on strings and on `use_include` -/

theorem append_values_data (l : List lex_token) : ∀ str : String,
    (append_values str l).data = str.data ++ (l.map (fun t => t.value.data)).flatten := by
  induction l with
  | nil => intro str; simp [append_values]
  | cons t ts ih => intro str; simp [append_values, ih, String.data_append]

theorem append_values_eq (str : String) (l : List lex_token) :
    append_values str l = str ++ String.join (l.map lex_token.value) := by
  apply String.ext
  rw [append_values_data, String.data_append, String.data_join]
  simp [List.map_map, Function.comp_def]

theorem append_ne_self (s t : String) (ht : t ≠ "") : s ++ t ≠ s := by
  intro h
  have hd : s.data ++ t.data = s.data := by
    have := congrArg String.data h
    simpa [String.data_append] using this
  have : t.data = [] := by simpa using hd
  exact ht (String.ext this)

theorem use_include_angle (pre : preprocessor) (ctx : wave_context) (P : String)
    (is_system : Bool) :
    use_include pre ctx ("<" ++ P ++ ">") is_system false
      = match ctx.find_include_file P true with
        | none => some (false, P, true)
        | some (file_name, dir) =>
          some (pre.is_preprocess_directory (pre.remove_filename dir), file_name, true) := by
  simp [use_include, c_str_at, erase_begin, pop_back, String.data_append]

theorem use_include_quote (pre : preprocessor) (ctx : wave_context) (P : String)
    (is_system : Bool) :
    use_include pre ctx ("\"" ++ P ++ "\"") is_system false
      = match ctx.find_include_file P false with
        | none => some (false, P, false)
        | some (file_name, dir) =>
          some (pre.is_preprocess_directory (pre.remove_filename dir), file_name, false) := by
  simp [use_include, c_str_at, erase_begin, pop_back, String.data_append]

theorem use_include_next (pre : preprocessor) (ctx : wave_context) (file_name : String)
    (is_system : Bool) :
    use_include pre ctx file_name is_system true = some (false, file_name, is_system) := by
  simp [use_include]

/-- The three things `found_include_directive` does, by the result of `use_include` and the
depth. -/
theorem found_include_directive_cases (pre : preprocessor) (ctx : wave_context)
    (st : policy_state) (file_name : String) (include_next is_system0 : Bool)
    (use : Bool) (name : String) (is_system : Bool)
    (huse : use_include pre ctx file_name is_system0 include_next = some (use, name, is_system)) :
    found_include_directive pre ctx st file_name include_next is_system0
      = if use = true then
          if ctx.iteration_depth = 0 then
            some (⟨st.file ++ [cpp_entity.inclusion_directive name
              (if is_system then inclusion_kind.system else inclusion_kind.local_) 0],
              st.include_⟩, false)
          else some (st, false)
        else
          some (⟨st.file, st.include_ ++ ("#" ++ (if include_next then "include_next" else "include")
            ++ (if is_system then "<" else "\"") ++ name
            ++ (if is_system then ">" else "\"") ++ "\n")⟩, true) := by
  unfold found_include_directive
  rw [huse]
  cases use <;> simp [add_entity, String.append_assoc]


/-! ## Claims on macro undefinition -/

/-- C1: at inclusion depth 0, `undefined_macro` truncates the file at the first entity named
like the undefined macro: when the file is `front ++ [e] ++ post`, no entity of `front` has the
name and `e` has it (whatever the kind of `e` and whatever `post` holds), the file afterwards is
exactly `front`, and the include buffer is untouched. -/
theorem undefined_macro_truncates_at_first_match (ctx : wave_context) (st : policy_state)
    (name : lex_token) (front post : List cpp_entity) (e : cpp_entity)
    (hdepth : ctx.iteration_depth = 0)
    (hfile : st.file = front ++ [e] ++ post)
    (hfront : ∀ x ∈ front, x.get_name ≠ name.value)
    (he : e.get_name = name.value) :
    undefined_macro ctx st name = ⟨front, st.include_⟩ := by
  have hscan : scan_prev name.value (front ++ (e :: post)) 0 none
      = (if front = [] then none else some (0 + front.length - 1)) := by
    rw [scan_prev_append name.value (e :: post) front 0 none hfront]
    simp [scan_prev, he]
  have hfile2 : st.file = front ++ (e :: post) := by simp [hfile]
  unfold undefined_macro
  simp only [hdepth, ne_eq, not_true_eq_false, if_false, hfile2, hscan,
    remove_entity_after_front]

/-- Witness for C1: a file `[A, M, B, M]` is cut back to `[A]`, and define-then-undefine of
`M` alone leaves the empty file. -/
theorem undefined_macro_truncates_at_first_match_witness :
    undefined_macro ⟨0, fun _ _ => none⟩
        ⟨[cpp_entity.macro_definition "A" "" "1" 1,
          cpp_entity.inclusion_directive "M" inclusion_kind.local_ 0,
          cpp_entity.macro_definition "B" "" "2" 3,
          cpp_entity.macro_definition "M" "" "3" 4], ""⟩ ⟨"M", 5⟩
      = ⟨[cpp_entity.macro_definition "A" "" "1" 1], ""⟩
    ∧ undefined_macro ⟨0, fun _ _ => none⟩
        ⟨[cpp_entity.macro_definition "M" "" "3" 1], ""⟩ ⟨"M", 2⟩ = ⟨[], ""⟩ :=
  ⟨undefined_macro_truncates_at_first_match ⟨0, fun _ _ => none⟩ _ ⟨"M", 5⟩
      [cpp_entity.macro_definition "A" "" "1" 1]
      [cpp_entity.macro_definition "B" "" "2" 3, cpp_entity.macro_definition "M" "" "3" 4]
      (cpp_entity.inclusion_directive "M" inclusion_kind.local_ 0)
      rfl rfl (by decide) rfl,
   undefined_macro_truncates_at_first_match ⟨0, fun _ _ => none⟩ _ ⟨"M", 2⟩ [] []
      (cpp_entity.macro_definition "M" "" "3" 1) rfl rfl (by decide) rfl⟩

/-- C2: at inclusion depth 0, undefining a macro no entity of the file is named like leaves
the policy state exactly as it was, the empty file included; the predecessor the scan hands to
`remove_entity_after` is null on the empty file and the last entity otherwise. -/
theorem undefined_macro_unknown_is_noop (ctx : wave_context) (st : policy_state)
    (name : lex_token) (hdepth : ctx.iteration_depth = 0)
    (hno : ∀ x ∈ st.file, x.get_name ≠ name.value) :
    undefined_macro ctx st name = st
    ∧ scan_prev name.value st.file 0 none
        = (if st.file = [] then none else some (st.file.length - 1)) := by
  have hscan : scan_prev name.value st.file 0 none
      = (if st.file = [] then none else some (0 + st.file.length - 1)) := by
    have h := scan_prev_append name.value [] st.file 0 none hno
    simpa [scan_prev] using h
  have hrem := remove_entity_after_front st.file []
  rw [List.append_nil] at hrem
  refine ⟨?_, by simpa using hscan⟩
  unfold undefined_macro
  simp only [hdepth, ne_eq, not_true_eq_false, if_false, hscan, hrem]

/-- Witness for C2: undefining `M` on a file holding `A` and `B`, and on the empty file. -/
theorem undefined_macro_unknown_is_noop_witness :
    ( undefined_macro ⟨0, fun _ _ => none⟩
        ⟨[cpp_entity.macro_definition "A" "" "1" 1, cpp_entity.macro_definition "B" "" "2" 2], ""⟩
        ⟨"M", 3⟩
      = ⟨[cpp_entity.macro_definition "A" "" "1" 1, cpp_entity.macro_definition "B" "" "2" 2], ""⟩
     ∧ scan_prev "M"
        [cpp_entity.macro_definition "A" "" "1" 1, cpp_entity.macro_definition "B" "" "2" 2]
        0 none = some 1)
    ∧ ( undefined_macro ⟨0, fun _ _ => none⟩ ⟨[], ""⟩ ⟨"M", 3⟩ = ⟨[], ""⟩
     ∧ scan_prev "M" [] 0 none = none) :=
  ⟨undefined_macro_unknown_is_noop ⟨0, fun _ _ => none⟩
      ⟨[cpp_entity.macro_definition "A" "" "1" 1, cpp_entity.macro_definition "B" "" "2" 2], ""⟩
      ⟨"M", 3⟩ rfl (by decide),
   undefined_macro_unknown_is_noop ⟨0, fun _ _ => none⟩ ⟨[], ""⟩ ⟨"M", 3⟩ rfl (by decide)⟩


/-! ## Lemmas on the preprocessing loop -/

theorem use_include_delimited (pre : preprocessor) (ctx : wave_context)
    (file_name P : String) (system is_system0 : Bool)
    (hname : (file_name = "<" ++ P ++ ">" ∧ system = true)
      ∨ (file_name = "\"" ++ P ++ "\"" ∧ system = false)) :
    use_include pre ctx file_name is_system0 false
      = match ctx.find_include_file P system with
        | none => some (false, P, system)
        | some (resolved, dir) =>
          some (pre.is_preprocess_directory (pre.remove_filename dir), resolved, system) := by
  rcases hname with ⟨hn, hs⟩ | ⟨hn, hs⟩
  · subst hn; subst hs; exact use_include_angle pre ctx P is_system0
  · subst hn; subst hs; exact use_include_quote pre ctx P is_system0

/-- The text `found_include_directive` writes for any `include_next` directive: `use_include`
returns before it assigns `is_system` or strips the name, so the delimiters written come from
the indeterminate `is_system` and the name still carries its own. -/
theorem found_include_directive_include_next (pre : preprocessor) (ctx : wave_context)
    (st : policy_state) (file_name : String) (is_system : Bool) :
    found_include_directive pre ctx st file_name true is_system
      = some (⟨st.file, st.include_ ++ ("#include_next" ++ (if is_system then "<" else "\"")
          ++ file_name ++ (if is_system then ">" else "\"") ++ "\n")⟩, true) := by
  have hlit : ("#" : String) ++ "include_next" = "#include_next" := by decide
  rw [found_include_directive_cases pre ctx st file_name true is_system false file_name
    is_system (use_include_next pre ctx file_name is_system)]
  simp [hlit]

/-! ## Claims on include directives -/

/-- C3, as stated, fails.  For `#include "x.h"` in the main file, resolved to the relevant
directory `inc` by a resolver that leaves the name alone, the hook appends the inclusion
directive and leaves the buffer, but returns `false`, the result that makes Boost.Wave open
and process the file, not `true`.  With a resolver that writes the located file back into
the name, the path of the entity is that name, not the stripped path `x.h`. -/
theorem found_include_directive_doc_visible_counterexample :
    (found_include_directive ⟨fun d => decide (d = "inc"), fun _ => "inc"⟩
        ⟨0, fun name _ => some (name, "inc/" ++ name)⟩ ⟨[], ""⟩ "\"x.h\"" false false
      = some (⟨[cpp_entity.inclusion_directive "x.h" inclusion_kind.local_ 0], ""⟩, false)
    ∧ found_include_directive ⟨fun d => decide (d = "inc"), fun _ => "inc"⟩
        ⟨0, fun name _ => some (name, "inc/" ++ name)⟩ ⟨[], ""⟩ "\"x.h\"" false false
      ≠ some (⟨[cpp_entity.inclusion_directive "x.h" inclusion_kind.local_ 0], ""⟩, true))
    ∧ found_include_directive ⟨fun d => decide (d = "inc"), fun _ => "inc"⟩
        ⟨0, fun name _ => some ("/proj/inc/" ++ name, "inc/" ++ name)⟩ ⟨[], ""⟩
        "\"x.h\"" false false
      = some (⟨[cpp_entity.inclusion_directive "/proj/inc/x.h" inclusion_kind.local_ 0], ""⟩,
          false) := by
  decide

/-- C3, amended: for an include directive that is not `include_next`, with delimited name
`<P>` or `"P"`, that the resolver resolves (leaving `resolved` in the name) to a relevant
directory, met at depth 0, `found_include_directive` appends exactly one inclusion directive at
the end of the file, with path `resolved` and kind system iff the delimiter was `<`, leaves
the include buffer untouched, and returns `false` (Boost.Wave then opens and processes the
file). -/
theorem found_include_directive_doc_visible (pre : preprocessor) (ctx : wave_context)
    (st : policy_state) (file_name P resolved dir : String) (system is_system0 : Bool)
    (hname : (file_name = "<" ++ P ++ ">" ∧ system = true)
      ∨ (file_name = "\"" ++ P ++ "\"" ∧ system = false))
    (hres : ctx.find_include_file P system = some (resolved, dir))
    (hrel : pre.is_preprocess_directory (pre.remove_filename dir) = true)
    (hdepth : ctx.iteration_depth = 0) :
    found_include_directive pre ctx st file_name false is_system0
      = some (⟨st.file ++ [cpp_entity.inclusion_directive resolved
          (if system then inclusion_kind.system else inclusion_kind.local_) 0], st.include_⟩,
          false) := by
  have huse : use_include pre ctx file_name is_system0 false = some (true, resolved, system) := by
    rcases hname with ⟨hn, hs⟩ | ⟨hn, hs⟩
    · subst hn; subst hs
      rw [use_include_angle, hres]; simp [hrel]
    · subst hn; subst hs
      rw [use_include_quote, hres]; simp [hrel]
  rw [found_include_directive_cases pre ctx st file_name false is_system0 true resolved system huse]
  simp [hdepth]

/-- Witness for C3 as amended: `#include <v.h>` in the main file, resolved without rewriting
to the relevant directory `inc`. -/
theorem found_include_directive_doc_visible_witness :
    found_include_directive ⟨fun d => decide (d = "inc"), fun _ => "inc"⟩
        ⟨0, fun name _ => some (name, "inc/" ++ name)⟩
        ⟨[cpp_entity.macro_definition "N" "" "4" 1], ""⟩ "<v.h>" false false
      = some (⟨[cpp_entity.macro_definition "N" "" "4" 1]
          ++ [cpp_entity.inclusion_directive "v.h"
            (if true then inclusion_kind.system else inclusion_kind.local_) 0], ""⟩, false) :=
  found_include_directive_doc_visible ⟨fun d => decide (d = "inc"), fun _ => "inc"⟩
    ⟨0, fun name _ => some (name, "inc/" ++ name)⟩
    ⟨[cpp_entity.macro_definition "N" "" "4" 1], ""⟩ "<v.h>" "v.h" "v.h" "inc/v.h" true false
    (Or.inl ⟨by decide, rfl⟩) rfl (by decide) rfl

/-- C4, as stated, fails: an include of a relevant directory met at depth 1 makes
`found_include_directive` do neither thing; the state comes back as it was, so no entity is
appended and no text is appended. -/
theorem found_include_directive_partition_counterexample :
    found_include_directive ⟨fun d => decide (d = "inc"), fun _ => "inc"⟩
        ⟨1, fun name _ => some (name, "inc/" ++ name)⟩ ⟨[], ""⟩ "\"x.h\"" false false
      = some (⟨[], ""⟩, false)
    ∧ ¬ ((∃ e : cpp_entity, ([] : cpp_file) = [] ++ [e])
      ∨ (∃ text : String, text ≠ "" ∧ "" = "" ++ text)) := by
  refine ⟨by decide, ?_⟩
  rintro (⟨e, he⟩ | ⟨text, hne, ht⟩)
  · simp at he
  · exact hne (by simpa using ht.symm)

/-- C4, amended: for every include directive event (`include_next` with any name, or a name
`<P>` or `"P"`) the hook returns, and does exactly one of three things.  A directive that is
not `include_next`, resolves, and lies in a relevant directory gets one inclusion directive
appended and the buffer left when met at depth 0, and changes nothing when met at a depth
above 0.  Every other directive (unresolvable, resolved to a directory that is not relevant,
or `include_next`) leaves the file and gets its directive text appended to the buffer: the
keyword, the opening delimiter, the name, the closing delimiter, a newline.  The hook never
appends both an entity and text. -/
theorem found_include_directive_partition (pre : preprocessor) (ctx : wave_context)
    (st : policy_state) (file_name P : String) (system include_next is_system0 : Bool)
    (hname : include_next = true
      ∨ (file_name = "<" ++ P ++ ">" ∧ system = true)
      ∨ (file_name = "\"" ++ P ++ "\"" ∧ system = false)) :
    ∃ (st' : policy_state) (r : Bool),
      found_include_directive pre ctx st file_name include_next is_system0 = some (st', r)
      ∧ ((include_next = false ∧ ctx.iteration_depth = 0
            ∧ (∃ resolved dir : String,
                ctx.find_include_file P system = some (resolved, dir)
                ∧ pre.is_preprocess_directory (pre.remove_filename dir) = true
                ∧ st' = ⟨st.file ++ [cpp_entity.inclusion_directive resolved
                    (if system then inclusion_kind.system else inclusion_kind.local_) 0],
                    st.include_⟩)
            ∧ r = false)
        ∨ (include_next = false ∧ ctx.iteration_depth ≠ 0
            ∧ (∃ resolved dir : String,
                ctx.find_include_file P system = some (resolved, dir)
                ∧ pre.is_preprocess_directory (pre.remove_filename dir) = true)
            ∧ st' = st ∧ r = false)
        ∨ (include_next = false ∧ ctx.find_include_file P system = none
            ∧ st' = ⟨st.file, st.include_ ++ ("#include" ++ (if system then "<" else "\"")
                ++ P ++ (if system then ">" else "\"") ++ "\n")⟩
            ∧ r = true)
        ∨ (include_next = false
            ∧ (∃ resolved dir : String,
                ctx.find_include_file P system = some (resolved, dir)
                ∧ pre.is_preprocess_directory (pre.remove_filename dir) = false
                ∧ st' = ⟨st.file, st.include_ ++ ("#include" ++ (if system then "<" else "\"")
                    ++ resolved ++ (if system then ">" else "\"") ++ "\n")⟩)
            ∧ r = true)
        ∨ (include_next = true
            ∧ st' = ⟨st.file, st.include_ ++ ("#include_next"
                ++ (if is_system0 then "<" else "\"") ++ file_name
                ++ (if is_system0 then ">" else "\"") ++ "\n")⟩
            ∧ r = true))
      ∧ ¬ ((∃ e : cpp_entity, st'.file = st.file ++ [e])
          ∧ (∃ text : String, text ≠ "" ∧ st'.include_ = st.include_ ++ text)) := by
  have hfile_ne : ∀ e : cpp_entity, st.file ≠ st.file ++ [e] := by
    intro e h
    have := congrArg List.length h
    simp at this
  have hno_text : ¬ ∃ text : String, text ≠ "" ∧ st.include_ = st.include_ ++ text := by
    rintro ⟨text, hne, ht⟩
    exact append_ne_self st.include_ text hne ht.symm
  have hlit : ("#" : String) ++ "include" = "#include" := by decide
  cases include_next with
  | true =>
    refine ⟨_, true, found_include_directive_include_next pre ctx st file_name is_system0,
      Or.inr (Or.inr (Or.inr (Or.inr ⟨rfl, rfl, rfl⟩))), ?_⟩
    rintro ⟨⟨e, he⟩, _⟩
    exact hfile_ne e he
  | false =>
    have hshape : (file_name = "<" ++ P ++ ">" ∧ system = true)
        ∨ (file_name = "\"" ++ P ++ "\"" ∧ system = false) := by
      rcases hname with h | h
      · exact absurd h (by decide)
      · exact h
    have huse := use_include_delimited pre ctx file_name P system is_system0 hshape
    cases hfind : ctx.find_include_file P system with
    | none =>
      rw [hfind] at huse
      have hfound := found_include_directive_cases pre ctx st file_name false is_system0
        false P system huse
      simp only [Bool.false_eq_true, if_false, hlit] at hfound
      refine ⟨_, true, hfound, Or.inr (Or.inr (Or.inl ⟨rfl, rfl, rfl, rfl⟩)), ?_⟩
      rintro ⟨⟨e, he⟩, _⟩
      exact hfile_ne e he
    | some v =>
      obtain ⟨resolved, dir⟩ := v
      rw [hfind] at huse
      have huse : use_include pre ctx file_name is_system0 false
          = some (pre.is_preprocess_directory (pre.remove_filename dir), resolved, system) :=
        huse
      cases hrel : pre.is_preprocess_directory (pre.remove_filename dir) with
      | false =>
        rw [hrel] at huse
        have hfound := found_include_directive_cases pre ctx st file_name false is_system0
          false resolved system huse
        simp only [Bool.false_eq_true, if_false, hlit] at hfound
        refine ⟨_, true, hfound,
          Or.inr (Or.inr (Or.inr (Or.inl ⟨rfl, ⟨resolved, dir, rfl, hrel, rfl⟩, rfl⟩))), ?_⟩
        rintro ⟨⟨e, he⟩, _⟩
        exact hfile_ne e he
      | true =>
        rw [hrel] at huse
        have hfound := found_include_directive_cases pre ctx st file_name false is_system0
          true resolved system huse
        by_cases hd : ctx.iteration_depth = 0
        · simp only [hd, if_true] at hfound
          refine ⟨_, false, hfound, Or.inl ⟨rfl, hd, ⟨resolved, dir, rfl, hrel, rfl⟩, rfl⟩, ?_⟩
          rintro ⟨_, htext⟩
          exact hno_text htext
        · simp only [hd, if_true, if_false] at hfound
          refine ⟨st, false, hfound,
            Or.inr (Or.inl ⟨rfl, hd, ⟨resolved, dir, rfl, hrel⟩, rfl, rfl⟩), ?_⟩
          rintro ⟨_, htext⟩
          exact hno_text htext

/-- Witness for C4 as amended: the event of the counterexample, `#include "x.h"` of a
relevant directory met at depth 1. -/
theorem found_include_directive_partition_witness :
    ∃ (st' : policy_state) (r : Bool),
      found_include_directive ⟨fun d => decide (d = "inc"), fun _ => "inc"⟩
          ⟨1, fun name _ => some (name, "inc/" ++ name)⟩ ⟨[], ""⟩ "\"x.h\"" false false
        = some (st', r)
      ∧ ((false = false ∧ (1 : Nat) = 0
            ∧ (∃ resolved dir : String,
                some ("x.h", "inc/" ++ "x.h") = some (resolved, dir)
                ∧ decide ("inc" = "inc") = true
                ∧ st' = ⟨[] ++ [cpp_entity.inclusion_directive resolved
                    (if false then inclusion_kind.system else inclusion_kind.local_) 0], ""⟩)
            ∧ r = false)
        ∨ (false = false ∧ (1 : Nat) ≠ 0
            ∧ (∃ resolved dir : String,
                some ("x.h", "inc/" ++ "x.h") = some (resolved, dir)
                ∧ decide ("inc" = "inc") = true)
            ∧ st' = ⟨[], ""⟩ ∧ r = false)
        ∨ (false = false ∧ (some ("x.h", "inc/" ++ "x.h") : Option (String × String)) = none
            ∧ st' = ⟨[], "" ++ ("#include" ++ (if false then "<" else "\"")
                ++ "x.h" ++ (if false then ">" else "\"") ++ "\n")⟩
            ∧ r = true)
        ∨ (false = false
            ∧ (∃ resolved dir : String,
                some ("x.h", "inc/" ++ "x.h") = some (resolved, dir)
                ∧ decide ("inc" = "inc") = false
                ∧ st' = ⟨[], "" ++ ("#include" ++ (if false then "<" else "\"")
                    ++ resolved ++ (if false then ">" else "\"") ++ "\n")⟩)
            ∧ r = true)
        ∨ (false = true
            ∧ st' = ⟨[], "" ++ ("#include_next"
                ++ (if false then "<" else "\"") ++ "\"x.h\""
                ++ (if false then ">" else "\"") ++ "\n")⟩
            ∧ r = true))
      ∧ ¬ ((∃ e : cpp_entity, st'.file = [] ++ [e])
          ∧ (∃ text : String, text ≠ "" ∧ st'.include_ = "" ++ text)) :=
  found_include_directive_partition ⟨fun d => decide (d = "inc"), fun _ => "inc"⟩
    ⟨1, fun name _ => some (name, "inc/" ++ name)⟩ ⟨[], ""⟩ "\"x.h\"" "x.h" false false false
    (Or.inr (Or.inr ⟨by decide, rfl⟩))

/-- C6, the code at the failing input `#include_next <foo.h>`: the buffer receives
`#include_next<<foo.h>>` when the unassigned `is_system` happens to hold `true` and
`#include_next"<foo.h>"` when it holds `false`; in neither case `#include_next<foo.h>`. -/
theorem found_include_directive_include_next_failing (pre : preprocessor) (ctx : wave_context)
    (file : cpp_file) :
    found_include_directive pre ctx ⟨file, ""⟩ "<foo.h>" true true
      = some (⟨file, "#include_next<<foo.h>>\n"⟩, true)
    ∧ found_include_directive pre ctx ⟨file, ""⟩ "<foo.h>" true false
      = some (⟨file, "#include_next\"<foo.h>\"\n"⟩, true)
    ∧ ∀ is_system : Bool,
        found_include_directive pre ctx ⟨file, ""⟩ "<foo.h>" true is_system
          ≠ some (⟨file, "#include_next<foo.h>\n"⟩, true) := by
  refine ⟨?_, ?_, ?_⟩
  · rw [found_include_directive_include_next]; rfl
  · rw [found_include_directive_include_next]; rfl
  · intro is_system h
    rw [found_include_directive_include_next] at h
    have h2 := congrArg (fun r => r.map (fun p => p.1.include_)) h
    simp only [Option.map_some'] at h2
    cases is_system
    · exact absurd h2 (by decide)
    · exact absurd h2 (by decide)

/-! ## Claims on macro definition -/

/-- C7: `defined_macro` leaves the state unchanged when the macro is predefined or the depth
is not 0; otherwise it appends exactly one macro definition to the file, whose name is the
text of the name token, whose parameter text is empty for an object-like macro and the
parameter token texts between parentheses for a function-like one, whose replacement text is
the concatenation of the definition token texts, and whose line is the line of the name token
(a line that fits `unsigned`). -/
theorem defined_macro_records_main_file_macros (ctx : wave_context) (st : policy_state)
    (name : lex_token) (is_function_like : Bool) (parameters definition : List lex_token)
    (is_predefined : Bool) (hline : name.line < 2 ^ 32) :
    defined_macro ctx st name is_function_like parameters definition is_predefined
      = if is_predefined = true ∨ ctx.iteration_depth ≠ 0 then st
        else ⟨st.file ++ [cpp_entity.macro_definition name.value
            (if is_function_like then "(" ++ String.join (parameters.map lex_token.value) ++ ")"
              else "")
            (String.join (definition.map lex_token.value)) name.line], st.include_⟩ := by
  unfold defined_macro
  by_cases h : is_predefined = true ∨ ctx.iteration_depth ≠ 0
  · rw [if_pos h, if_pos (by simpa using h)]
  · rw [if_neg h, if_neg (by simpa using h)]
    have hmod : name.line % 4294967296 = name.line := Nat.mod_eq_of_lt hline
    simp [add_entity, append_values_eq, hmod]

/-- Witness for C7: `#define N 4` on line 1 of the main file gives name `N`, no parameter
text, body `4`, line 1; a function-like macro `F` on line 3 with parameter tokens `a`, `b`
gives the parameter text `(ab)`. -/
theorem defined_macro_records_main_file_macros_witness :
    defined_macro ⟨0, fun _ _ => none⟩ ⟨[], ""⟩ ⟨"N", 1⟩ false [] [⟨"4", 1⟩] false
      = ⟨[cpp_entity.macro_definition "N" "" "4" 1], ""⟩
    ∧ defined_macro ⟨0, fun _ _ => none⟩ ⟨[cpp_entity.macro_definition "N" "" "4" 1], ""⟩
        ⟨"F", 3⟩ true [⟨"a", 3⟩, ⟨"b", 3⟩] [⟨"a", 3⟩, ⟨"+", 3⟩, ⟨"b", 3⟩] false
      = ⟨[cpp_entity.macro_definition "N" "" "4" 1,
          cpp_entity.macro_definition "F" "(ab)" "a+b" 3], ""⟩
    ∧ defined_macro ⟨1, fun _ _ => none⟩ ⟨[cpp_entity.macro_definition "N" "" "4" 1], ""⟩
        ⟨"G", 7⟩ false [] [⟨"1", 7⟩] false
      = ⟨[cpp_entity.macro_definition "N" "" "4" 1], ""⟩ :=
  ⟨(defined_macro_records_main_file_macros ⟨0, fun _ _ => none⟩ ⟨[], ""⟩ ⟨"N", 1⟩ false []
      [⟨"4", 1⟩] false (by decide)).trans (by decide),
   (defined_macro_records_main_file_macros ⟨0, fun _ _ => none⟩
      ⟨[cpp_entity.macro_definition "N" "" "4" 1], ""⟩ ⟨"F", 3⟩ true
      [⟨"a", 3⟩, ⟨"b", 3⟩] [⟨"a", 3⟩, ⟨"+", 3⟩, ⟨"b", 3⟩] false
      (by decide)).trans (by decide),
   (defined_macro_records_main_file_macros ⟨1, fun _ _ => none⟩
      ⟨[cpp_entity.macro_definition "N" "" "4" 1], ""⟩ ⟨"G", 7⟩ false [] [⟨"1", 7⟩] false
      (by decide)).trans (by decide)⟩

/-! ## Claims on the engine configuration -/

/-- The two forms of a flag with a non-empty value `v`: `-D` and `-U` make the same call in
both forms, while `-I` calls `add_sysinclude_path` in the separate form and
`add_include_path` in the concatenated one. -/
theorem setup_context_flag_forms (v : String) (hv : v ≠ "") :
    setup_context ["-D", v] = setup_context ["-D" ++ v]
    ∧ setup_context ["-U", v] = setup_context ["-U" ++ v]
    ∧ setup_context ["-I", v]
        = Except.ok [context_call.set_language setup_context_lang,
            context_call.add_sysinclude_path v]
    ∧ setup_context ["-I" ++ v]
        = Except.ok [context_call.set_language setup_context_lang,
            context_call.add_include_path v] := by
  have hlen : ∀ p q : String, p.data.length = 2 → q.data.length = 2 → p ++ v ≠ q := by
    intro p q hp hq h
    have := congrArg (fun s => s.data.length) h
    simp only [String.data_append, List.length_append, hp, hq] at this
    have hv0 : v.data = [] := List.length_eq_zero.mp (by omega)
    exact hv (String.ext hv0)
  have hD := hlen "-D"
  have hU := hlen "-U"
  have hI := hlen "-I"
  refine ⟨?_, ?_, ?_, ?_⟩
  · simp [setup_context, setup_context_loop, hD "-D" rfl rfl, hD "-U" rfl rfl,
      hD "-I" rfl rfl, c_str_at, c_str_from, String.data_append]
  · simp [setup_context, setup_context_loop, hU "-D" rfl rfl, hU "-U" rfl rfl,
      hU "-I" rfl rfl, c_str_at, c_str_from, String.data_append]
  · simp [setup_context, setup_context_loop]
  · simp [setup_context, setup_context_loop, hI "-D" rfl rfl, hI "-U" rfl rfl,
      hI "-I" rfl rfl, c_str_at, c_str_from, String.data_append]

/-- C8, the code at the failing input: the flag list `-I inc` registers `inc` with
`add_sysinclude_path`, the flag list `-Iinc` registers it with `add_include_path`; the two
configurations differ. -/
theorem setup_context_include_flag_forms_differ :
    setup_context ["-I", "inc"]
      = Except.ok [context_call.set_language setup_context_lang,
          context_call.add_sysinclude_path "inc"]
    ∧ setup_context ["-Iinc"]
      = Except.ok [context_call.set_language setup_context_lang,
          context_call.add_include_path "inc"]
    ∧ setup_context ["-I", "inc"] ≠ setup_context ["-Iinc"] := by
  have h1 : setup_context ["-I", "inc"]
      = Except.ok [context_call.set_language setup_context_lang,
          context_call.add_sysinclude_path "inc"] := rfl
  have h2 : setup_context ["-Iinc"]
      = Except.ok [context_call.set_language setup_context_lang,
          context_call.add_include_path "inc"] := rfl
  refine ⟨h1, h2, ?_⟩
  intro h
  rw [h1, h2] at h
  simp at h

/-- C10, the code at the failing inputs: on a flag list ending in a bare `-D`, `-U` or `-I`
the loop advances the iterator to the end and dereferences it there, at an index equal to
the length of the list. -/
theorem setup_context_reads_past_end :
    setup_context ["-D"] = Except.error 1
    ∧ setup_context ["-U"] = Except.error 1
    ∧ setup_context ["-I"] = Except.error 1
    ∧ setup_context ["-DA=1", "-x", "-I"] = Except.error 3 :=
  ⟨rfl, rfl, rfl, rfl⟩


/-! ## Claims on function extraction -/

theorem parameter_parse_of_kind (u : parse_utils) (cur : cpp_cursor)
    (h : clang_getCursorKind cur = CXCursorKind.CXCursor_ParmDecl) :
    cpp_function_parameter.parse u cur
      = some ⟨u.parse_name cur, u.parse_comment cur,
          ⟨u.clang_getCursorType cur, (u.parse_variable_type_name cur (u.parse_name cur)).1⟩,
          (u.parse_variable_type_name cur (u.parse_name cur)).2⟩ := by
  simp [cpp_function_parameter.parse, parse_parameter_type, h]

theorem visit_cursors_parameters (u : parse_utils) (parent : cpp_cursor) :
    ∀ (cs : List cpp_cursor) (base : List cpp_function_parameter),
      ∃ params : List cpp_function_parameter,
        visit_cursors (parse_parameters_visitor u) parent cs base = some (base ++ params, false)
        ∧ params.map some
          = (cs.filter (fun c => decide (clang_getCursorKind c = CXCursorKind.CXCursor_ParmDecl))).map
              (cpp_function_parameter.parse u) := by
  intro cs
  induction cs with
  | nil => intro base; exact ⟨[], by simp [visit_cursors], by simp⟩
  | cons c rest ih =>
    intro base
    obtain ⟨id, kind, cs'⟩ := c
    by_cases hk : clang_getCursorKind (cpp_cursor.mk id kind cs') = CXCursorKind.CXCursor_ParmDecl
    · obtain ⟨p, hp⟩ : ∃ p, cpp_function_parameter.parse u (cpp_cursor.mk id kind cs') = some p :=
        ⟨_, parameter_parse_of_kind u (cpp_cursor.mk id kind cs') hk⟩
      obtain ⟨params, hv, hm⟩ := ih (base ++ [p])
      refine ⟨p :: params, ?_, ?_⟩
      · simp only [visit_cursors, parse_parameters_visitor, hk, if_true, hp, hv]
        simp
      · simp [List.filter_cons, hk, hp, hm]
    · obtain ⟨params, hv, hm⟩ := ih base
      refine ⟨params, ?_, ?_⟩
      · simp only [visit_cursors, parse_parameters_visitor, hk, if_false, hv]
      · simp [List.filter_cons, hk, hm]

theorem parse_parameters_eq (u : parse_utils) (cur : cpp_cursor) :
    ∃ params : List cpp_function_parameter,
      parse_parameters u [] cur = some params
      ∧ params.map some
        = (cur.children.filter
            (fun c => decide (clang_getCursorKind c = CXCursorKind.CXCursor_ParmDecl))).map
            (cpp_function_parameter.parse u) := by
  obtain ⟨params, hv, hm⟩ := visit_cursors_parameters u cur cur.children []
  exact ⟨params, by simp [parse_parameters, visit_children, hv], hm⟩

/-- C9: for a function node (whose qualifier bundle passes the three assertions) and for a
method node, `cpp_function::parse` and `cpp_member_function::parse` return an entity whose
parameter list is the list of the direct children of kind `ParmDecl`, in their order, each
parsed by `cpp_function_parameter::parse`; every such parse succeeds, the other children are
skipped, and there are as many parameters as `ParmDecl` children. -/
theorem parse_attaches_parameter_children (u : parse_utils) (scope : String) (cur : cpp_cursor)
    (hassert : clang_getCursorKind cur = CXCursorKind.CXCursor_FunctionDecl →
      (u.parse_function_info cur (u.parse_name cur)).2.2 = cpp_member_function_info.default) :
    ∃ params : List cpp_function_parameter,
      params.map some
        = (cur.children.filter
            (fun c => decide (clang_getCursorKind c = CXCursorKind.CXCursor_ParmDecl))).map
            (cpp_function_parameter.parse u)
      ∧ params.length
        = (cur.children.filter
            (fun c => decide (clang_getCursorKind c = CXCursorKind.CXCursor_ParmDecl))).length
      ∧ (clang_getCursorKind cur = CXCursorKind.CXCursor_FunctionDecl →
          ∃ f : cpp_function, cpp_function.parse u scope cur = some f ∧ f.parameters = params)
      ∧ (clang_getCursorKind cur = CXCursorKind.CXCursor_CXXMethod →
          ∃ m : cpp_member_function,
            cpp_member_function.parse u scope cur = some m ∧ m.parameters = params) := by
  obtain ⟨params, hp, hm⟩ := parse_parameters_eq u cur
  have hlen := congrArg List.length hm
  simp only [List.length_map] at hlen
  refine ⟨params, hm, hlen, ?_, ?_⟩
  · intro hf
    have ha := hassert hf
    simp [cpp_function.parse, parse_function_info, hf, ha, cpp_member_function_info.default, hp]
  · intro hmeth
    simp [cpp_member_function.parse, parse_member_function_info, hmeth, hp]


/-- Witness for C9: the sample function node, whose four direct children hold two `ParmDecl`
nodes, the second one unnamed; the entity gets exactly those two parameters, and the
`ParmDecl` nested in the body is not attached. -/
theorem parse_attaches_parameter_children_witness :
    (∃ params : List cpp_function_parameter,
      params.map some
        = (sample_function.children.filter
            (fun c => decide (clang_getCursorKind c = CXCursorKind.CXCursor_ParmDecl))).map
            (cpp_function_parameter.parse sample_utils)
      ∧ params.length
        = (sample_function.children.filter
            (fun c => decide (clang_getCursorKind c = CXCursorKind.CXCursor_ParmDecl))).length
      ∧ (clang_getCursorKind sample_function = CXCursorKind.CXCursor_FunctionDecl →
          ∃ f : cpp_function,
            cpp_function.parse sample_utils "" sample_function = some f ∧ f.parameters = params)
      ∧ (clang_getCursorKind sample_function = CXCursorKind.CXCursor_CXXMethod →
          ∃ m : cpp_member_function,
            cpp_member_function.parse sample_utils "" sample_function = some m
              ∧ m.parameters = params))
    ∧ cpp_function.parse sample_utils "" sample_function
      = some ⟨"", "f", "", ⟨17, "int"⟩, ⟨[]⟩,
          [⟨"x", "", ⟨17, "int"⟩, ""⟩, ⟨"", "", ⟨17, "int"⟩, "4"⟩]⟩ :=
  ⟨parse_attaches_parameter_children sample_utils "" sample_function (fun _ => rfl),
   by decide⟩

end standardese
